import Mathlib

/-!
Verification of the two executable snippets of the repository
`SilverX21/max-typescript-course`:

* `src/section9/linked-list.ts` — a generic singly linked list (`ListNode<T>`,
  `LinkedList<T>` with `add`, `getNumberOfElements`, `print`);
* `src/section4/calculator.ts` — an investment calculator
  (`calculateInvestment : InvestmentData → CalculationResult`).

The linked list is embedded with an explicit node store ("heap"): JavaScript
node objects are heap cells addressed by allocation index, a pointer is an
`Option Nat`, and the statement `this.tail.next = node` is an in-place update
of the cell the tail pointer designates.  This is the faithful rendering of
the source, where `root` and `tail` can alias the same object.

The calculator is embedded over exact rational arithmetic `ℚ`.
-/

namespace Spec2Proof

/-! ## Embedding of src/section9/linked-list.ts -/

/-- A heap cell for `ListNode<T>`: the stored `value` and the optional
pointer `next` (the allocation index of the next node). -/
structure ListNode (T : Type) where
  value : T
  next : Option Nat
deriving Repr, DecidableEq

/-- The state of a `LinkedList<T>` object: the store of every node allocated
so far (index = allocation order), plus the fields `root`, `tail` (pointers,
i.e. optional node indices) and `length` of the class. -/
structure LinkedListSt (T : Type) where
  heap : List (ListNode T)
  root : Option Nat
  tail : Option Nat
  length : Nat
deriving Repr, DecidableEq

/-- Constructor `new LinkedList()`: `root` and `tail` are absent, `length = 0`,
no nodes allocated. -/
def emptyList (T : Type) : LinkedListSt T :=
  { heap := [], root := none, tail := none, length := 0 }

/-- In-place update of the `next` field of the heap cell at index `i`
(the statement `this.tail.next = node`). -/
def setNext {T : Type} : List (ListNode T) → Nat → Option Nat → List (ListNode T)
  | [], _, _ => []
  | node :: rest, 0, nxt => { node with next := nxt } :: rest
  | node :: rest, i + 1, nxt => node :: setNext rest i nxt

/-- Method `LinkedList.add(value)`: allocate a fresh node holding `value`; if
`root` or `tail` is absent, point both at the fresh node; otherwise set the
`next` field of the node `tail` points to.  `tail` itself is never moved in
the else-branch, exactly as in the source.  `length` is incremented. -/
def add {T : Type} (st : LinkedListSt T) (value : T) : LinkedListSt T :=
  let node : ListNode T := { value := value, next := none }
  let id := st.heap.length
  match st.root, st.tail with
  | some _, some t =>
      { heap := setNext st.heap t (some id) ++ [node]
        root := st.root
        tail := st.tail
        length := st.length + 1 }
  | _, _ =>
      { heap := st.heap ++ [node]
        root := some id
        tail := some id
        length := st.length + 1 }

/-- Method `LinkedList.getNumberOfElements()`: returns the `length` field. -/
def LinkedListSt.getNumberOfElements {T : Type} (st : LinkedListSt T) : Nat :=
  st.length

/-- The `while (current) { console.log(current.value); current = current.next }`
loop of `LinkedList.print`, as a traversal of the heap from a pointer.  The
loop in the source has no bound, so the embedding carries fuel; exhausted
fuel (a cycle, impossible in reachable states) and a dangling pointer
(impossible in JavaScript) are distinguished as errors, so that `.ok` means
the loop terminated normally, printing the listed values. -/
def printE {T : Type} : Nat → List (ListNode T) → Option Nat → Except String (List T)
  | 0, _, some _ => .error "loop limit exhausted"
  | _, _, none => .ok []
  | fuel + 1, heap, some i =>
      match heap[i]? with
      | none => .error "dangling node id"
      | some node => (printE fuel heap node.next).map (fun l => node.value :: l)

/-- Method `LinkedList.print()`: traverse from `root`.  Fuel one beyond the number
of allocated nodes: an acyclic traversal can never need more. -/
def LinkedListSt.print {T : Type} (st : LinkedListSt T) : Except String (List T) :=
  printE (st.heap.length + 1) st.heap st.root

/-- Run a sequence of `add` calls, in order, on a list state. -/
def addAll {T : Type} (st : LinkedListSt T) (vs : List T) : LinkedListSt T :=
  vs.foldl add st

/-- Closed form of the state reached from `new LinkedList()` by
`add v; add w` for each `w` in `rest`, in order: the `next` field of the first node
points at the most recently allocated node (or nowhere when it is alone),
every later node is a sink, and `root` and `tail` both still point at the
first node. -/
def stateAfter {T : Type} (v : T) (rest : List T) : LinkedListSt T :=
  { heap := { value := v,
              next := if rest.length = 0 then none else some rest.length } ::
              rest.map (fun w => { value := w, next := none })
    root := some 0
    tail := some 0
    length := rest.length + 1 }

/-- The values `print` actually outputs after the given sequence of `add`
calls on a fresh list: the first value followed by the last, when there are
two or more. -/
def printedValues {T : Type} : List T → List T
  | [] => []
  | [v] => [v]
  | v1 :: v2 :: rest => [v1, rest.getLastD v2]

/-- State-passing embedding of `getNumberOfElements`: the method body is
`return this.length`, which reads but never writes the object, so the
post-state is threaded through unchanged by every statement. -/
def getNumberOfElementsSt {T : Type} (st : LinkedListSt T) : Nat × LinkedListSt T :=
  (st.length, st)

/-- State-passing embedding of the `print` loop: the loop reads
`current.value` and `current.next` and assigns only the local `current`,
so the object state is threaded through each iteration. -/
def printLoopSt {T : Type} :
    Nat → LinkedListSt T → Option Nat → Except String (List T) × LinkedListSt T
  | 0, st, some _ => (.error "loop limit exhausted", st)
  | _, st, none => (.ok [], st)
  | fuel + 1, st, some i =>
      match st.heap[i]? with
      | none => (.error "dangling node id", st)
      | some node =>
          let r := printLoopSt fuel st node.next
          (r.1.map (fun l => node.value :: l), r.2)

/-- State-passing embedding of `LinkedList.print()`. -/
def printSt {T : Type} (st : LinkedListSt T) :
    Except String (List T) × LinkedListSt T :=
  printLoopSt (st.heap.length + 1) st st.root

/-! ### Lemmas about the linked-list state space -/

theorem add_stateAfter {T : Type} (v w : T) (rest : List T) :
    add (stateAfter v rest) w = stateAfter v (rest ++ [w]) := by
  simp [add, stateAfter, setNext]

theorem addAll_stateAfter {T : Type} (v : T) (rest rest2 : List T) :
    addAll (stateAfter v rest) rest2 = stateAfter v (rest ++ rest2) := by
  induction rest2 generalizing rest with
  | nil => simp [addAll]
  | cons w ws ih =>
      have h1 : addAll (stateAfter v rest) (w :: ws)
          = addAll (add (stateAfter v rest) w) ws := rfl
      rw [h1, add_stateAfter, ih]
      simp

theorem addAll_empty {T : Type} (v : T) (vs : List T) :
    addAll (emptyList T) (v :: vs) = stateAfter v vs := by
  have h0 : add (emptyList T) v = stateAfter v [] := by
    simp [add, emptyList, stateAfter]
  have h1 : addAll (emptyList T) (v :: vs)
      = addAll (add (emptyList T) v) vs := rfl
  rw [h1, h0, addAll_stateAfter]
  simp

theorem printedValues_concat {T : Type} (v a : T) (rs : List T) :
    printedValues (v :: (rs ++ [a])) = [v, a] := by
  cases rs with
  | nil => simp [printedValues]
  | cons r rs => simp [printedValues, List.getLastD_concat]

theorem printE_stateAfter {T : Type} (v : T) (rest : List T) (fuel : Nat)
    (h : 2 ≤ fuel) :
    printE fuel (stateAfter v rest).heap (stateAfter v rest).root
      = Except.ok (printedValues (v :: rest)) := by
  obtain ⟨k, rfl⟩ : ∃ k, fuel = k + 2 :=
    ⟨fuel - 2, by omega⟩
  rcases List.eq_nil_or_concat rest with rfl | ⟨rs, a, rfl⟩
  · simp [stateAfter, printE, printedValues, Except.map]
  · rw [List.concat_eq_append, printedValues_concat]
    have hlen : (rs ++ [a]).length = rs.length + 1 := by simp
    have hget : ((stateAfter v (rs ++ [a])).heap)[rs.length + 1]?
        = some { value := a, next := none } := by
      simp [stateAfter, List.getElem?_append_right]
    simp [stateAfter] at hget ⊢
    rw [show k + 2 = (k + 1) + 1 from rfl]
    simp [printE, hget, Except.map]

theorem add_length {T : Type} (st : LinkedListSt T) (v : T) :
    (add st v).length = st.length + 1 := by
  cases h1 : st.root <;> cases h2 : st.tail <;> simp [add, h1, h2]

theorem printLoopSt_preserves {T : Type} (fuel : Nat) (st : LinkedListSt T)
    (cur : Option Nat) : (printLoopSt fuel st cur).2 = st := by
  induction fuel generalizing cur with
  | zero => cases cur <;> simp [printLoopSt]
  | succ f ih =>
      cases cur with
      | none => simp [printLoopSt]
      | some i =>
          rcases hg : st.heap[i]? with _ | node <;>
            simp [printLoopSt, hg, ih]

/-! ### Claim theorems for the linked list -/

/-- C1: for every fresh `LinkedList<T>` and every sequence of `n ≥ 2` values
`v1, …, vn` passed to `add` in that order, `print` outputs exactly two
values, `v1` followed by `vn`, even though `getNumberOfElements` returns
`n`; `add` never advances the tail pointer (it still designates the first
node), so every `add` after the first overwrites the second node of the
chain. -/
theorem c1_add_overwrites_second_node (T : Type) (v1 v2 : T) (rest : List T) :
    (addAll (emptyList T) (v1 :: v2 :: rest)).print
        = Except.ok [v1, rest.getLastD v2]
    ∧ (addAll (emptyList T) (v1 :: v2 :: rest)).getNumberOfElements
        = (v1 :: v2 :: rest).length
    ∧ (addAll (emptyList T) (v1 :: v2 :: rest)).tail = some 0
    ∧ (addAll (emptyList T) (v1 :: v2 :: rest)).root = some 0 := by
  rw [addAll_empty]
  refine ⟨?_, ?_, ?_, ?_⟩
  · have h := printE_stateAfter v1 (v2 :: rest)
      ((stateAfter v1 (v2 :: rest)).heap.length + 1) (by simp [stateAfter])
    simpa [LinkedListSt.print, printedValues] using h
  · simp [stateAfter, LinkedListSt.getNumberOfElements]
  · simp [stateAfter]
  · simp [stateAfter]

/-- C5: every linked-list operation is total: on every state reachable by a
sequence of `add` calls on a fresh list, the `print` loop terminates
normally within any fuel bound of at least 2 and returns the printed values
(never an error), and `add` and `getNumberOfElements` return normally
(`add` increments the count by one). -/
theorem c5_operations_total (T : Type) (vs : List T) (v : T) (fuel : Nat)
    (h : 2 ≤ fuel) :
    printE fuel (addAll (emptyList T) vs).heap (addAll (emptyList T) vs).root
        = Except.ok (printedValues vs)
    ∧ (add (addAll (emptyList T) vs) v).getNumberOfElements
        = (addAll (emptyList T) vs).getNumberOfElements + 1 := by
  constructor
  · cases vs with
    | nil =>
        cases fuel with
        | zero => omega
        | succ f => simp [addAll, emptyList, printE, printedValues]
    | cons w ws =>
        rw [addAll_empty]
        exact printE_stateAfter w ws fuel h
  · simpa [LinkedListSt.getNumberOfElements] using
      add_length (addAll (emptyList T) vs) v

/-- Witness for C5 at a concrete input. -/
theorem c5_operations_total_witness :
    printE 5 (addAll (emptyList ℕ) [1, 2, 3]).heap
        (addAll (emptyList ℕ) [1, 2, 3]).root
      = Except.ok (printedValues [1, 2, 3])
    ∧ (add (addAll (emptyList ℕ) [1, 2, 3]) 4).getNumberOfElements
      = (addAll (emptyList ℕ) [1, 2, 3]).getNumberOfElements + 1 :=
  c5_operations_total ℕ [1, 2, 3] 4 5 (by norm_num)

/-- C8: a newly constructed `LinkedList` is empty: `getNumberOfElements`
returns 0 and `print` outputs nothing.  The binder `prior` ranges over any
sequence of operations performed on a previously constructed list; in the
embedding a construction is the constant `emptyList`, which no operation on
another list can touch, so the observations of the fresh list are independent of
`prior`. -/
theorem c8_fresh_list_empty (T : Type) (_prior : List T) :
    (emptyList T).getNumberOfElements = 0
    ∧ (emptyList T).print = Except.ok [] := by
  refine ⟨rfl, ?_⟩
  simp [emptyList, LinkedListSt.print, printE]

/-- C9: `getNumberOfElements` and `print` are read-only: on every list state
the state-passing embeddings return the state unchanged (for the print loop,
from any node pointer and with any fuel), so repeated calls with no
intervening `add` return the same count and print the same values. -/
theorem c9_observers_readonly (T : Type) (st : LinkedListSt T) (fuel : Nat)
    (cur : Option Nat) :
    (printLoopSt fuel st cur).2 = st
    ∧ (getNumberOfElementsSt st).2 = st
    ∧ (printSt st).2 = st
    ∧ (printSt ((printSt st).2)).1 = (printSt st).1
    ∧ (getNumberOfElementsSt ((printSt st).2)).1 = (getNumberOfElementsSt st).1 := by
  have hpre : ∀ (f : Nat) (c : Option Nat), (printLoopSt f st c).2 = st :=
    fun f c => printLoopSt_preserves f st c
  have hps : (printSt st).2 = st := hpre _ _
  exact ⟨hpre fuel cur, rfl, hps, by rw [hps], by rw [hps]⟩

/-! ## Embedding of src/section4/calculator.ts

All numeric fields are embedded as exact rationals `ℚ`. -/

/-- The `InvestmentData` input record. -/
structure InvestmentData where
  initialAmount : ℚ
  annualContribution : ℚ
  expectedReturn : ℚ
  duration : ℚ
deriving Repr, DecidableEq

/-- The per-year `InvestmentResult` record. -/
structure InvestmentResult where
  year : String
  totalAmount : ℚ
  totalContributions : ℚ
  totalInterestEarned : ℚ
deriving Repr, DecidableEq

/-- Type `CalculationResult = InvestmentResult[] | string`: either the per-year
records or an error message. -/
abbrev CalculationResult := Except String (List InvestmentResult)

/-- How many times the body of `for (let i = 0; i < duration; i++)` runs:
the number of naturals `i` with `i < duration`, which is the
non-negative ceiling of `duration`. -/
def iterations (duration : ℚ) : Nat := Nat.ceil duration

/-- The loop guard characterization: iteration `i` runs exactly when
`i < duration`, as in the source loop head. -/
theorem iterations_guard (duration : ℚ) (i : Nat) :
    i < iterations duration ↔ (i : ℚ) < duration :=
  Nat.lt_ceil

/-- The mutable locals of `calculateInvestment` during the loop, together
with the `data` argument threaded through so that writes to it (there are
none in the source) would be observable. -/
structure CalcLoopSt where
  data : InvestmentData
  total : ℚ
  totalContributions : ℚ
  totalInterestEarned : ℚ
  annualResults : List InvestmentResult
deriving Repr

/-- One iteration `i` of the loop body, statement by statement:
`total = total * (1 + expectedReturn)`, then
`totalInterestEarned = total - totalContributions - initialAmount`
(reading the not-yet-updated `totalContributions`), then
`totalContributions = totalContributions + annualContribution`, then
`total = total + annualContribution`, then the push of the record with
`year = "Year " + (i+1)`. -/
def calcStep (s : CalcLoopSt) (i : Nat) : CalcLoopSt :=
  let total1 := s.total * (1 + s.data.expectedReturn)
  let tie := total1 - s.totalContributions - s.data.initialAmount
  let tc := s.totalContributions + s.data.annualContribution
  let total2 := total1 + s.data.annualContribution
  { data := s.data
    total := total2
    totalContributions := tc
    totalInterestEarned := tie
    annualResults := s.annualResults ++
      [{ year := "Year " ++ toString (i + 1)
         totalAmount := total2
         totalContributions := tc
         totalInterestEarned := tie }] }

/-- The whole loop of `calculateInvestment`, from the initial values
`total = initialAmount`, `totalContributions = 0`,
`totalInterestEarned = 0`, `annualResults = []`. -/
def runCalcLoop (data : InvestmentData) : CalcLoopSt :=
  (List.range (iterations data.duration)).foldl calcStep
    { data := data
      total := data.initialAmount
      totalContributions := 0
      totalInterestEarned := 0
      annualResults := [] }

/-- State-passing embedding of `calculateInvestment`: the three validation
early returns, then the loop, then `return annualResults`; the second
component is the state of the `data` argument after the call. -/
def calculateInvestmentSt (data : InvestmentData) :
    CalculationResult × InvestmentData :=
  if data.initialAmount < 0 then
    (.error "Initial investment amount must be at least zero", data)
  else if data.duration < 0 then
    (.error "No valid amount of years provided", data)
  else if data.expectedReturn ≤ 0 then
    (.error "Expected result must be at least zero", data)
  else
    let final := runCalcLoop data
    (.ok final.annualResults, final.data)

/-- Function `calculateInvestment` as the caller sees it: the returned value. -/
def calculateInvestment (data : InvestmentData) : CalculationResult :=
  (calculateInvestmentSt data).1

/-! ### Lemmas about the calculator -/

theorem calcLoop_data_preserved (l : List Nat) (s : CalcLoopSt) :
    (l.foldl calcStep s).data = s.data := by
  induction l generalizing s with
  | nil => rfl
  | cons i t ih => rw [List.foldl_cons, ih]; rfl

theorem runCalcLoop_data (d : InvestmentData) : (runCalcLoop d).data = d :=
  calcLoop_data_preserved _ _

theorem calc_err_initial (d : InvestmentData) (h : d.initialAmount < 0) :
    calculateInvestment d
      = .error "Initial investment amount must be at least zero" := by
  simp [calculateInvestment, calculateInvestmentSt, if_pos h]

theorem calc_err_duration (d : InvestmentData) (h1 : 0 ≤ d.initialAmount)
    (h : d.duration < 0) :
    calculateInvestment d = .error "No valid amount of years provided" := by
  simp [calculateInvestment, calculateInvestmentSt,
    if_neg (not_lt.mpr h1), if_pos h]

theorem calc_err_return (d : InvestmentData) (h1 : 0 ≤ d.initialAmount)
    (h2 : 0 ≤ d.duration) (h : d.expectedReturn ≤ 0) :
    calculateInvestment d = .error "Expected result must be at least zero" := by
  simp [calculateInvestment, calculateInvestmentSt,
    if_neg (not_lt.mpr h1), if_neg (not_lt.mpr h2), if_pos h]

theorem calc_valid (d : InvestmentData) (h1 : 0 ≤ d.initialAmount)
    (h2 : 0 ≤ d.duration) (h3 : 0 < d.expectedReturn) :
    calculateInvestment d = .ok (runCalcLoop d).annualResults := by
  simp [calculateInvestment, calculateInvestmentSt,
    if_neg (not_lt.mpr h1), if_neg (not_lt.mpr h2), if_neg (not_le.mpr h3)]

/-- Every record the loop pushes satisfies the accounting identity. -/
theorem calcLoop_identity (init : ℚ) (l : List Nat) (s : CalcLoopSt)
    (hd : s.data.initialAmount = init)
    (hs : ∀ r ∈ s.annualResults,
      r.totalAmount = init + r.totalContributions + r.totalInterestEarned) :
    ∀ r ∈ (l.foldl calcStep s).annualResults,
      r.totalAmount = init + r.totalContributions + r.totalInterestEarned := by
  induction l generalizing s with
  | nil => exact hs
  | cons i t ih =>
      rw [List.foldl_cons]
      refine ih (calcStep s i) (by rw [show (calcStep s i).data = s.data from rfl, hd]) ?_
      intro r hr
      rcases List.mem_append.mp hr with hold | hnew
      · exact hs r hold
      · rcases List.mem_singleton.mp hnew with rfl
        show s.total * (1 + s.data.expectedReturn) + s.data.annualContribution
          = init + (s.totalContributions + s.data.annualContribution)
            + (s.total * (1 + s.data.expectedReturn)
                - s.totalContributions - s.data.initialAmount)
        rw [hd]; ring

/-- The accounting identity for the records of a whole loop run. -/
theorem runCalcLoop_identity (d : InvestmentData) :
    ∀ r ∈ (runCalcLoop d).annualResults,
      r.totalAmount = d.initialAmount + r.totalContributions
        + r.totalInterestEarned :=
  calcLoop_identity d.initialAmount _ _ rfl (by simp)

/-- A concrete two-year run evaluated in full. -/
theorem calc_example :
    calculateInvestment { initialAmount := 1000, annualContribution := 2400, expectedReturn := 1, duration := 2 }
      = Except.ok
        [{ year := "Year 1", totalAmount := 4400, totalContributions := 2400, totalInterestEarned := 1000 },
         { year := "Year 2", totalAmount := 11200, totalContributions := 4800, totalInterestEarned := 5400 }] := by
  norm_num [calculateInvestment, calculateInvestmentSt, runCalcLoop,
    iterations, calcStep, List.range_succ]
  exact ⟨rfl, rfl⟩

/-! ### Claim theorems for the calculator -/

/-- C2 counterexample: `calculateInvestment` does have an input-dependent
failure branch and does return an error value: at a negative initial amount
it returns an error string, not the per-year array. -/
theorem c2_counterexample :
    calculateInvestment { initialAmount := -1, annualContribution := 2400, expectedReturn := 1/10, duration := 40 }
      = Except.error "Initial investment amount must be at least zero" :=
  calc_err_initial _ (by norm_num)

/-- C2 (amended): `calculateInvestment` validates its input: for every
`InvestmentData` passing the three checks it returns the array of per-year
`InvestmentResult` records produced by the loop, and for every input failing
a check it returns an error string. -/
theorem c2_calculator_validates (d : InvestmentData) :
    (0 ≤ d.initialAmount → 0 ≤ d.duration → 0 < d.expectedReturn →
      calculateInvestment d = Except.ok (runCalcLoop d).annualResults)
    ∧ (d.initialAmount < 0 ∨ d.duration < 0 ∨ d.expectedReturn ≤ 0 →
      ∃ s, calculateInvestment d = Except.error s) := by
  constructor
  · exact fun h1 h2 h3 => calc_valid d h1 h2 h3
  · intro hc
    rcases lt_or_le d.initialAmount 0 with h | h1
    · exact ⟨_, calc_err_initial d h⟩
    · rcases lt_or_le d.duration 0 with h | h2
      · exact ⟨_, calc_err_duration d h1 h⟩
      · rcases le_or_lt d.expectedReturn 0 with h | h3
        · exact ⟨_, calc_err_return d h1 h2 h⟩
        · exfalso; rcases hc with hc | hc | hc <;> linarith

/-- Witness for C2 (amended) at a concrete valid input. -/
theorem c2_calculator_validates_witness :
    calculateInvestment { initialAmount := 1000, annualContribution := 2400, expectedReturn := 1, duration := 0 }
      = Except.ok (runCalcLoop { initialAmount := 1000, annualContribution := 2400, expectedReturn := 1, duration := 0 }).annualResults :=
  (c2_calculator_validates _).1 (by norm_num) (by norm_num) (by norm_num)

/-- C3: `calculateInvestment` returns an error string if and only if
`initialAmount < 0`, or `duration < 0`, or `expectedReturn ≤ 0`; the
boundary `expectedReturn = 0` is rejected with the message
`"Expected result must be at least zero"`, while `duration = 0` is accepted
and yields the empty result array. -/
theorem c3_error_iff_invalid (d : InvestmentData) :
    ((∃ s, calculateInvestment d = Except.error s) ↔
      (d.initialAmount < 0 ∨ d.duration < 0 ∨ d.expectedReturn ≤ 0))
    ∧ (0 ≤ d.initialAmount → 0 ≤ d.duration → d.expectedReturn = 0 →
      calculateInvestment d = Except.error "Expected result must be at least zero")
    ∧ (0 ≤ d.initialAmount → 0 < d.expectedReturn → d.duration = 0 →
      calculateInvestment d = Except.ok []) := by
  refine ⟨⟨?_, ?_⟩, ?_, ?_⟩
  · rintro ⟨s, hs⟩
    by_contra hc
    push_neg at hc
    obtain ⟨h1, h2, h3⟩ := hc
    rw [calc_valid d h1 h2 h3] at hs
    exact absurd hs (by simp)
  · intro hc
    rcases lt_or_le d.initialAmount 0 with h | h1
    · exact ⟨_, calc_err_initial d h⟩
    · rcases lt_or_le d.duration 0 with h | h2
      · exact ⟨_, calc_err_duration d h1 h⟩
      · rcases le_or_lt d.expectedReturn 0 with h | h3
        · exact ⟨_, calc_err_return d h1 h2 h⟩
        · exfalso; rcases hc with hc | hc | hc <;> linarith
  · intro h1 h2 h3
    exact calc_err_return d h1 h2 (le_of_eq h3)
  · intro h1 h3 h2
    rw [calc_valid d h1 (le_of_eq h2.symm) h3]
    have hz : iterations d.duration = 0 := by rw [h2]; simp [iterations]
    simp [runCalcLoop, hz]

/-- Witness for C3 at concrete boundary inputs. -/
theorem c3_error_iff_invalid_witness :
    calculateInvestment { initialAmount := 1000, annualContribution := 2400, expectedReturn := 0, duration := 10 }
      = Except.error "Expected result must be at least zero"
    ∧ calculateInvestment { initialAmount := 1000, annualContribution := 2400, expectedReturn := 1, duration := 0 }
      = Except.ok [] :=
  ⟨(c3_error_iff_invalid _).2.1 (by norm_num) (by norm_num) rfl,
   (c3_error_iff_invalid _).2.2 (by norm_num) (by norm_num) rfl⟩

/-- C4: every `InvestmentResult` record in a successfully returned array
satisfies the accounting identity
`totalAmount = initialAmount + totalContributions + totalInterestEarned`
exactly, over exact rational arithmetic. -/
theorem c4_accounting_identity (d : InvestmentData)
    (rs : List InvestmentResult) (h : calculateInvestment d = Except.ok rs) :
    ∀ r ∈ rs, r.totalAmount
      = d.initialAmount + r.totalContributions + r.totalInterestEarned := by
  by_cases h1 : d.initialAmount < 0
  · rw [calc_err_initial d h1] at h; exact absurd h (by simp)
  · by_cases h2 : d.duration < 0
    · rw [calc_err_duration d (not_lt.mp h1) h2] at h; exact absurd h (by simp)
    · by_cases h3 : d.expectedReturn ≤ 0
      · rw [calc_err_return d (not_lt.mp h1) (not_lt.mp h2) h3] at h
        exact absurd h (by simp)
      · rw [calc_valid d (not_lt.mp h1) (not_lt.mp h2) (not_le.mp h3)] at h
        obtain rfl : (runCalcLoop d).annualResults = rs := by
          injection h
        exact runCalcLoop_identity d

/-- Witness for C4 at the first record of a concrete two-year run. -/
theorem c4_accounting_identity_witness :
    ({ year := "Year 1", totalAmount := 4400, totalContributions := 2400, totalInterestEarned := 1000 } : InvestmentResult).totalAmount
      = ({ initialAmount := 1000, annualContribution := 2400, expectedReturn := 1, duration := 2 } : InvestmentData).initialAmount
        + ({ year := "Year 1", totalAmount := 4400, totalContributions := 2400, totalInterestEarned := 1000 } : InvestmentResult).totalContributions
        + ({ year := "Year 1", totalAmount := 4400, totalContributions := 2400, totalInterestEarned := 1000 } : InvestmentResult).totalInterestEarned :=
  c4_accounting_identity
    { initialAmount := 1000, annualContribution := 2400, expectedReturn := 1, duration := 2 }
    [{ year := "Year 1", totalAmount := 4400, totalContributions := 2400, totalInterestEarned := 1000 },
     { year := "Year 2", totalAmount := 11200, totalContributions := 4800, totalInterestEarned := 5400 }]
    calc_example
    { year := "Year 1", totalAmount := 4400, totalContributions := 2400, totalInterestEarned := 1000 }
    (by simp)

/-- C6: `calculateInvestment` is deterministic and depends only on its
argument: two calls on field-wise equal `InvestmentData` values return equal
`CalculationResult` values. -/
theorem c6_deterministic (d1 d2 : InvestmentData)
    (h1 : d1.initialAmount = d2.initialAmount)
    (h2 : d1.annualContribution = d2.annualContribution)
    (h3 : d1.expectedReturn = d2.expectedReturn)
    (h4 : d1.duration = d2.duration) :
    calculateInvestment d1 = calculateInvestment d2 := by
  have hd : d1 = d2 := by cases d1; cases d2; simp_all
  rw [hd]

/-- Witness for C6 at a concrete input. -/
theorem c6_deterministic_witness :
    calculateInvestment { initialAmount := 1000, annualContribution := 2400, expectedReturn := 1, duration := 40 }
      = calculateInvestment { initialAmount := 1000, annualContribution := 2400, expectedReturn := 1, duration := 40 } :=
  c6_deterministic _ _ rfl rfl rfl rfl

/-- C7: `calculateInvestment` leaves its argument unchanged: in the
state-passing embedding, the post-call state of the `data` record equals the
pre-call state on every input, on every path (each early return and the
loop). -/
theorem c7_argument_unchanged (d : InvestmentData) :
    (calculateInvestmentSt d).2 = d := by
  unfold calculateInvestmentSt
  split_ifs <;> simp [runCalcLoop_data]

end Spec2Proof
